import Mathlib

/-!
Shallow embedding of the pumpsol scanner core: the circuit breaker and
retry layer of the fetch utility, the token safety filter, the strategy
detectors, the pair source's seen-cache gating, and the rug-check gate.
Numbers of the JavaScript source are modelled as rationals (`ℚ`) and epoch
milliseconds as integers (`ℤ`); `Date.now()` becomes an explicit `now`
parameter, and the outcome of each network attempt becomes an explicit
oracle argument.
-/

namespace PumpSol

/-! ## Circuit breaker (utils/fetch: class CircuitBreaker) -/

inductive CircuitState
  | CLOSED
  | OPEN
  | HALF_OPEN
  deriving DecidableEq, Repr

structure CircuitBreaker where
  state : CircuitState
  failureCount : Nat
  successCount : Nat
  lastFailureTime : ℤ
  deriving DecidableEq, Repr

/-- `private readonly failureThreshold = 5` -/
def failureThreshold : Nat := 5

/-- `private readonly successThreshold = 2` -/
def successThreshold : Nat := 2

/-- `private readonly timeout = 60000` (the breaker cooldown in ms) -/
def breakerTimeout : ℤ := 60000

/-- Initial breaker: `state = CLOSED`, counters zero. -/
def CircuitBreaker.initial : CircuitBreaker :=
  { state := .CLOSED, failureCount := 0, successCount := 0, lastFailureTime := 0 }

/-- `CircuitBreaker.recordSuccess`: zero the failure count; while HALF_OPEN,
count the success and close the breaker at the success threshold. -/
def CircuitBreaker.recordSuccess (cb : CircuitBreaker) : CircuitBreaker :=
  let cb := { cb with failureCount := 0 }
  if cb.state = .HALF_OPEN then
    let sc := cb.successCount + 1
    if successThreshold ≤ sc then
      { cb with state := .CLOSED, successCount := 0 }
    else
      { cb with successCount := sc }
  else
    cb

/-- `CircuitBreaker.recordFailure`: increment the failure count, stamp the
failure time, and open the breaker once the count reaches the threshold. -/
def CircuitBreaker.recordFailure (now : ℤ) (cb : CircuitBreaker) : CircuitBreaker :=
  let fc := cb.failureCount + 1
  let cb := { cb with failureCount := fc, lastFailureTime := now }
  if failureThreshold ≤ fc then
    { cb with state := .OPEN }
  else
    cb

/-- `CircuitBreaker.canAttempt`: CLOSED admits; OPEN admits (moving to
HALF_OPEN with the success count reset) once the cooldown elapsed, else
rejects; HALF_OPEN admits. Returns the admission flag and the updated
breaker. -/
def CircuitBreaker.canAttempt (now : ℤ) (cb : CircuitBreaker) : Bool × CircuitBreaker :=
  match cb.state with
  | .CLOSED => (true, cb)
  | .OPEN =>
    if breakerTimeout ≤ now - cb.lastFailureTime then
      (true, { cb with state := .HALF_OPEN, successCount := 0 })
    else
      (false, cb)
  | .HALF_OPEN => (true, cb)

/-! ## Retry layer (utils/fetch: addJitter, fetchWithRetry) -/

/-- `addJitter(delay)`: `delay + Math.random() * 0.3 * delay`; the random
draw in `[0, 1)` is an explicit argument. -/
def addJitter (rand : ℚ) (delay : ℚ) : ℚ :=
  delay + rand * (3 / 10) * delay

/-- Observable trace of one `fetchWithRetry` call: the returned value,
the backoff waits performed, how many network attempts ran, how many
failures were recorded to the breaker, and the final breaker. -/
structure FetchTrace (α : Type) where
  result : Option α
  waits : List ℚ
  attempts : Nat
  failuresRecorded : Nat
  breaker : CircuitBreaker
  deriving DecidableEq, Repr

/-- The `for (attempt = 1; attempt <= retries; ...)` loop of
`fetchWithRetry`: `outcomes k` is what the network returns on attempt `k`
(`none` = thrown/timeout/non-2xx), `rand k` the jitter draw before the wait
that follows a failed attempt `k`. A success records one breaker success and
returns; a failure on the last attempt records one breaker failure and
returns null; an intermediate failure waits `addJitter(retryDelay * 2^(attempt-1))`
and retries. `fuel` counts the remaining loop iterations. -/
def retryLoopAux (outcomes : Nat → Option α) (rand : Nat → ℚ) (retryDelay : ℚ)
    (retries : Nat) (now : ℤ) : Nat → Nat → CircuitBreaker → FetchTrace α
  | _, 0, cb =>
    { result := none, waits := [], attempts := 0, failuresRecorded := 0, breaker := cb }
  | attempt, fuel + 1, cb =>
    match outcomes attempt with
    | some v =>
      { result := some v, waits := [], attempts := 1, failuresRecorded := 0,
        breaker := cb.recordSuccess }
    | none =>
      if attempt = retries then
        { result := none, waits := [], attempts := 1, failuresRecorded := 1,
          breaker := cb.recordFailure now }
      else
        let d := addJitter (rand attempt) (retryDelay * 2 ^ (attempt - 1))
        let t := retryLoopAux outcomes rand retryDelay retries now (attempt + 1) fuel cb
        { t with waits := d :: t.waits, attempts := t.attempts + 1 }

/-- `fetchWithRetry`: consult the breaker gate first; a rejected call
returns null with zero network attempts, an admitted call runs the retry
loop from attempt 1. -/
def fetchWithRetry (outcomes : Nat → Option α) (rand : Nat → ℚ) (retryDelay : ℚ)
    (retries : Nat) (now : ℤ) (cb : CircuitBreaker) : FetchTrace α :=
  let gate := cb.canAttempt now
  if gate.1 then
    retryLoopAux outcomes rand retryDelay retries now 1 retries gate.2
  else
    { result := none, waits := [], attempts := 0, failuresRecorded := 0, breaker := gate.2 }

/-! ## Data model (scanner: TokenPair; config: ScannerConfig) -/

structure BaseToken where
  address : String
  name : String
  symbol : String
  deriving DecidableEq, Repr

/-- `TokenPair` of services/scanner; the optional numeric fields are read
in the filter as `x || 0`, modelled as `Option` + `getD 0`. -/
structure TokenPair where
  chainId : String
  dexId : String
  pairAddress : String
  baseToken : BaseToken
  fdv : Option ℚ
  liquidityUsd : Option ℚ
  volumeM5 : Option ℚ
  volumeH24 : Option ℚ
  priceChangeM5 : Option ℚ
  pairCreatedAt : Option ℤ
  deriving DecidableEq, Repr

/-- The `config.scanner` block. -/
structure ScannerConfig where
  minLiquidity : ℚ
  minVolume5m : ℚ
  minVolume24h : ℚ
  maxAgeMinutes : ℤ
  enableMintAuthorityCheck : Bool
  enableLiquidityLockCheck : Bool
  enableHolderDistributionCheck : Bool
  maxHolderConcentration : ℚ
  bannedWords : List String
  deriving Repr

/-- `DEFAULT_BANNED_WORDS` of config.ts, verbatim. -/
def defaultBannedWords : List String :=
  ["test", "fake", "scam", "rug", "honey", "ponzi", "dump",
   "sex", "porn", "xxx", "adult", "nude", "cock", "dick", "pussy",
   "hitler", "nazi", "terror", "bomb", "kill", "rape", "abuse",
   "shit", "damn", "fuck", "ass", "bitch", "bastard", "cunt",
   "whore", "slut", "nigger", "chink", "spic", "kike", "faggot"]

/-- `config.scanner` with every environment variable unset: the defaults
of config.ts. -/
def defaultScannerConfig : ScannerConfig :=
  { minLiquidity := 300
    minVolume5m := 100
    minVolume24h := 1000
    maxAgeMinutes := 10
    enableMintAuthorityCheck := false
    enableLiquidityLockCheck := false
    enableHolderDistributionCheck := false
    maxHolderConcentration := 20
    bannedWords := defaultBannedWords }

/-- JavaScript truthiness of the numeric `pair.pairCreatedAt` field:
`undefined` and `0` are falsy. -/
def jsTruthyTime : Option ℤ → Bool
  | none => false
  | some t => t != 0

/-! ## Safety filter (services/filter) -/

/-- `TokenSecurity` of services/tokenSecurity. -/
structure TokenSecurity where
  mintAuthorityEnabled : Bool
  freezeAuthorityEnabled : Bool
  liquidityLocked : Bool
  liquidityLockedPercent : ℚ
  top10HolderPercent : ℚ
  totalSupply : ℚ
  checked : Bool
  deriving DecidableEq, Repr

structure FilterStats where
  liquidity : ℚ
  volume5m : ℚ
  volume24h : ℚ
  priceChange : ℚ
  deriving DecidableEq, Repr

structure FilterResult where
  passed : Bool
  reason : Option String
  warnings : List String
  security : Option TokenSecurity
  stats : FilterStats
  deriving DecidableEq, Repr

/-- JS `toLowerCase()`, character by character. -/
def strLower (s : String) : String :=
  ⟨s.data.map Char.toLower⟩

/-- JS `haystack.includes(needle)` on the character lists of two strings. -/
def containsSub : List Char → List Char → Bool
  | [], sub => sub.isEmpty
  | h :: t, sub => sub.isPrefixOf (h :: t) || containsSub t sub

def strIncludes (s sub : String) : Bool :=
  containsSub s.data sub.data

/-- `checkBannedWords(symbol, name)`: lowercase both and collect every
banned word occurring as a substring of either; `banned` iff any match. -/
def checkBannedWords (bannedWords : List String) (symbol name : String) : Bool × List String :=
  let symbolLower := strLower symbol
  let nameLower := strLower name
  let found := bannedWords.filter
    (fun word => strIncludes symbolLower word || strIncludes nameLower word)
  (found.length > 0, found)

/-- `filterToken(pair)`: the ordered short-circuit pipeline of
services/filter. Reason and warning strings keep the source's static text;
the interpolated numbers of the source's template strings are elided. -/
def filterToken (cfg : ScannerConfig) (now : ℤ) (pair : TokenPair) : FilterResult :=
  let liquidity := pair.liquidityUsd.getD 0
  let volume5m := pair.volumeM5.getD 0
  let volume24h := pair.volumeH24.getD 0
  let priceChange := pair.priceChangeM5.getD 0
  let stats : FilterStats :=
    { liquidity := liquidity, volume5m := volume5m,
      volume24h := volume24h, priceChange := priceChange }
  let bannedCheck := checkBannedWords cfg.bannedWords pair.baseToken.symbol pair.baseToken.name
  -- 1. Banned Words Filter
  if bannedCheck.1 then
    { passed := false,
      reason := some ("Banned word detected: " ++ String.intercalate (", ") bannedCheck.2),
      warnings := [], security := none, stats := stats }
  -- 2. Liquidity Filter
  else if liquidity < cfg.minLiquidity then
    { passed := false, reason := some ("Low liquidity"),
      warnings := [], security := none, stats := stats }
  -- 3. Volume 5m Filter
  else if volume5m < cfg.minVolume5m then
    { passed := false, reason := some ("Low volume 5m"),
      warnings := [], security := none, stats := stats }
  -- 4. Volume 24h Filter (only when the pair is older than 60 minutes)
  else if volume24h < cfg.minVolume24h ∧ jsTruthyTime pair.pairCreatedAt = true ∧
      ((now - pair.pairCreatedAt.getD 0 : ℤ) : ℚ) / 60000 > 60 then
    { passed := false, reason := some ("Low volume 24h"),
      warnings := [], security := none, stats := stats }
  else
    let fdv := pair.fdv.getD 0
    -- 5. FDV/Liquidity Ratio: reject above 1000, warn above 100
    if fdv > 0 ∧ liquidity > 0 ∧ fdv / liquidity > 1000 then
      { passed := false, reason := some ("Suspicious FDV/Liquidity ratio (Potential Scam)"),
        warnings := [], security := none, stats := stats }
    else
      let warnings :=
        if fdv > 0 ∧ liquidity > 0 ∧ fdv / liquidity > 100 then
          ["⚠️ High FDV/Liquidity ratio"]
        else []
      -- 6. Honeypot Pattern Detection
      if priceChange > 300 ∧ volume5m < 1000 then
        { passed := false, reason := some ("Honeypot pattern detected"),
          warnings := warnings, security := none, stats := stats }
      else
        -- 7. Price Change Warnings
        let warnings := warnings ++
          (if priceChange > 300 then ["⚠️ Extreme pump"]
           else if priceChange > 100 then ["⚠️ High pump"]
           else [])
        -- 8. Age Warnings
        let warnings := warnings ++
          (if jsTruthyTime pair.pairCreatedAt = true ∧
              ((now - pair.pairCreatedAt.getD 0 : ℤ) : ℚ) / 60000 < 2 then
            ["⚠️ Very new (<2m)"]
           else [])
        -- 9. Low Liquidity Warning
        let warnings := warnings ++ (if liquidity < 1000 then ["⚠️ Low liquidity"] else [])
        -- 10. Low Volume Warnings
        let warnings := warnings ++ (if volume5m < 200 then ["⚠️ Low volume 5m"] else [])
        let warnings := warnings ++ (if volume24h < 5000 then ["⚠️ Low volume 24h"] else [])
        { passed := true, reason := none,
          warnings := warnings, security := none, stats := stats }

/-- `filterTokenWithSecurity(pair)`: run the basic filter; when it passed
and any security check is enabled, consult `checkTokenSecurity`, whose
outcome is the explicit `secOutcome` argument — `none` models the call
throwing, which the source catches and ignores. -/
def filterTokenWithSecurity (cfg : ScannerConfig) (now : ℤ) (pair : TokenPair)
    (secOutcome : Option TokenSecurity) : FilterResult :=
  let result := filterToken cfg now pair
  if result.passed = false then result
  else if cfg.enableMintAuthorityCheck || cfg.enableLiquidityLockCheck ||
      cfg.enableHolderDistributionCheck then
    match secOutcome with
    | none => result
    | some security =>
      let result := { result with security := some security }
      if cfg.enableMintAuthorityCheck = true ∧ security.mintAuthorityEnabled = true then
        { passed := false, reason := some ("Mint authority is enabled (can mint more tokens)"),
          warnings := result.warnings, security := some security, stats := result.stats }
      else
        let result :=
          if cfg.enableLiquidityLockCheck = true ∧ security.liquidityLocked = false then
            { result with warnings := result.warnings ++ ["⚠️ Liquidity NOT locked"] }
          else result
        if cfg.enableHolderDistributionCheck = true ∧
            security.top10HolderPercent > cfg.maxHolderConcentration then
          { passed := false, reason := some ("High holder concentration"),
            warnings := result.warnings, security := some security, stats := result.stats }
        else if security.top10HolderPercent > 20 then
          { result with warnings := result.warnings ++ ["⚠️ High holder concentration"] }
        else result
  else result

/-! ## Strategy detectors (services/strategies) -/

structure PricePoint where
  price : ℚ
  timestamp : ℤ
  volume : ℚ
  deriving DecidableEq, Repr

/-- `defaultStrategyConfig.minVolumeSpike = 3` -/
def minVolumeSpike : ℚ := 3

/-- `defaultStrategyConfig.minMomentumPercent = 10` -/
def minMomentumPercent : ℚ := 10

/-- `defaultStrategyConfig.maxPullbackPercent = 40` -/
def maxPullbackPercent : ℚ := 40

/-- `defaultStrategyConfig.minPriceChangePercent = 5` -/
def minPriceChangePercent : ℚ := 5

/-- `calculateMA(prices, period)`: mean of all entries when fewer than
`period` are available (0 on empty), else mean of the last `period`. -/
def calculateMA (prices : List ℚ) (period : Nat) : ℚ :=
  if prices.length < period then
    if prices.length > 0 then prices.sum / (prices.length : ℚ) else 0
  else
    (prices.drop (prices.length - period)).sum / (period : ℚ)

/-- The `avgVolume` local of `detectVolumeSpike`:
`calculateMA(volumes, Math.min(20, volumes.length))`. -/
def avgVolume (history : List PricePoint) : ℚ :=
  let volumes := history.map (·.volume)
  calculateMA volumes (min 20 volumes.length)

/-- `detectVolumeSpike`: the `triggered` flag. The stored history is the
explicit `history` list (`tokenHistory.get(address)?.prices`, `[]` when
the token is untracked). -/
def detectVolumeSpike (history : List PricePoint) (currentVolume priceChange : ℚ) : Bool :=
  if history.length < 5 then false
  else if avgVolume history ≤ 0 ∨ currentVolume < minVolumeSpike * avgVolume history then
    false
  else if priceChange < minPriceChangePercent then false
  else true

/-- Five stored points with volume 100 each: average volume 100. -/
def spikeHistory : List PricePoint :=
  [⟨1, 0, 100⟩, ⟨2, 1, 100⟩, ⟨3, 2, 100⟩, ⟨4, 3, 100⟩, ⟨5, 4, 100⟩]

/-- `Math.min(...xs)` over a nonempty list (0 on empty, unreachable here). -/
def listMin : List ℚ → ℚ
  | [] => 0
  | x :: xs => xs.foldl min x

/-- `Math.max(...xs)` over a nonempty list (0 on empty, unreachable here). -/
def listMax : List ℚ → ℚ
  | [] => 0
  | x :: xs => xs.foldl max x

/-- Recent high of `detectMomentumBack`: max price of the last 10 points. -/
def recentHigh (history : List PricePoint) : ℚ :=
  listMax ((history.drop (history.length - 10)).map (·.price))

/-- Recent low of `detectMomentumBack`: min price of the last 10 points. -/
def recentLow (history : List PricePoint) : ℚ :=
  listMin ((history.drop (history.length - 10)).map (·.price))

/-- Pullback from the recent high, percent. -/
def pullbackPercent (history : List PricePoint) (currentPrice : ℚ) : ℚ :=
  (recentHigh history - currentPrice) / recentHigh history * 100

/-- Recovery from the recent low, percent. -/
def recoveryPercent (history : List PricePoint) (currentPrice : ℚ) : ℚ :=
  (currentPrice - recentLow history) / recentLow history * 100

/-- `detectMomentumBack`: the `triggered` flag. -/
def detectMomentumBack (history : List PricePoint)
    (currentPrice priceChange1h priceChange24h : ℚ) : Bool :=
  if history.length < 10 then false
  else if pullbackPercent history currentPrice < 5 ∨
      pullbackPercent history currentPrice > maxPullbackPercent then false
  else if recoveryPercent history currentPrice < minMomentumPercent then false
  else if priceChange1h < 2 ∧ priceChange24h < 5 then false
  else true

/-- Ten stored points whose high is 10 and low is 7. -/
def momentumHistory : List PricePoint :=
  [⟨8, 0, 0⟩, ⟨9, 1, 0⟩, ⟨10, 2, 0⟩, ⟨17/2, 3, 0⟩, ⟨7, 4, 0⟩,
   ⟨36/5, 5, 0⟩, ⟨37/5, 6, 0⟩, ⟨73/10, 7, 0⟩, ⟨38/5, 8, 0⟩, ⟨15/2, 9, 0⟩]

/-! ## Pair source and seen-cache (services/scanner) -/

/-- `CacheEntry` of services/scanner. -/
structure CacheEntry where
  timestamp : ℤ
  pairCreatedAt : ℤ
  deriving DecidableEq, Repr

/-- The seen-pairs `Map`, as an association list in insertion order. -/
abbrev SeenCache := List (String × CacheEntry)

/-- JS `Map.get`. -/
def alistGet {β : Type} : List (String × β) → String → Option β
  | [], _ => none
  | (k', v) :: rest, k => if k' = k then some v else alistGet rest k

/-- JS `Map.set`: replace in place when the key exists, else append. -/
def alistSet {β : Type} : List (String × β) → String → β → List (String × β)
  | [], k, v => [(k, v)]
  | (k', v') :: rest, k, v =>
    if k' = k then (k', v) :: rest else (k', v') :: alistSet rest k v

/-- `new Map(allPairs.map(p => [p.pairAddress, p])).values()`:
last-writer-wins dedup by pair address. -/
def dedupByAddress (ps : List TokenPair) : List TokenPair :=
  (ps.foldl (fun m p => alistSet m p.pairAddress p) []).map (·.2)

/-- The gating chain of `fetchNewPairs` for one candidate: a (truthy)
creation time no older than `maxAgeMs`, then the liquidity-lock check,
then the rug check. The two async predicates are oracle arguments. -/
def passesGates (now maxAgeMs : ℤ) (isLiquidityLocked checkRug : TokenPair → Bool)
    (p : TokenPair) : Bool :=
  match p.pairCreatedAt with
  | none => false
  | some t =>
    if t = 0 then false
    else if now - t > maxAgeMs then false
    else if isLiquidityLocked p = false then false
    else if checkRug p = false then false
    else true

/-- The per-tick core of `fetchNewPairs` after the HTTP fetches: dedup the
merged results, drop pairs already in the seen-cache, keep those passing
all gates, and insert exactly those into the cache. Returns the new pairs
and the updated cache. -/
def fetchNewPairsCore (seen : SeenCache) (allPairs : List TokenPair) (now maxAgeMs : ℤ)
    (isLiquidityLocked checkRug : TokenPair → Bool) : List TokenPair × SeenCache :=
  let uniquePairs := dedupByAddress allPairs
  let unseenPairs := uniquePairs.filter (fun p => (alistGet seen p.pairAddress).isNone)
  let newPairs := unseenPairs.filter (passesGates now maxAgeMs isLiquidityLocked checkRug)
  let seen2 := newPairs.foldl
    (fun s p =>
      alistSet s p.pairAddress { timestamp := now, pairCreatedAt := p.pairCreatedAt.getD 0 })
    seen
  (newPairs, seen2)

/-- `maxCacheAge = 24 * 60 * 60 * 1000` of `cleanOldCache`. -/
def maxCacheAgeMs : ℤ := 24 * 60 * 60 * 1000

/-- `cleanOldCache()`: delete every entry whose `timestamp` lies more than
24 hours before `now`. -/
def cleanOldCache (now : ℤ) (seen : SeenCache) : SeenCache :=
  seen.filter (fun e => !(decide (now - e.2.timestamp > maxCacheAgeMs)))

/-! ## Rug-check gate (services/rugcheck: checkRugStatus) -/

/-- One element of the RugCheck report's `risks` array. -/
structure RugRisk where
  name : String
  value : String
  level : String
  riskScore : ℚ
  deriving DecidableEq, Repr

/-- Outcome of the HTTP exchange inside `checkRugStatus`: a thrown error
(network failure or malformed JSON body), a non-2xx response with its
status, or a 2xx response with the parsed `score` and `risks` fields
(either may be absent, read as `x || 0` resp. `x || []`). -/
inductive RugFetchOutcome
  | thrown
  | badStatus (status : Nat)
  | okBody (score : Option ℚ) (risks : Option (List RugRisk))
  deriving DecidableEq, Repr

/-- `checkRugStatus(pair)`: 404 and every other non-ok status return true,
a thrown error returns true; a parsed body rejects (false) on
`score > 1500`, else on any risk of level "danger", else passes. -/
def checkRugStatus : RugFetchOutcome → Bool
  | .thrown => true
  | .badStatus status => if status = 404 then true else true
  | .okBody scoreField risksField =>
    let score := scoreField.getD 0
    if score > 1500 then false
    else
      let risks := risksField.getD []
      let criticalRisks := risks.filter (fun r => r.level == "danger")
      if criticalRisks.length > 0 then false
      else true

/-- An Open breaker with five recorded failures, last failure at time 0. -/
def cbOpenAt0 : CircuitBreaker :=
  { state := CircuitState.OPEN, failureCount := 5, successCount := 0, lastFailureTime := 0 }

/-- A HalfOpen breaker with the residual failure count 5. -/
def cbHalfAt0 : CircuitBreaker :=
  { state := CircuitState.HALF_OPEN, failureCount := 5, successCount := 0, lastFailureTime := 0 }

/-- A HalfOpen breaker after one recorded success (failure count reset). -/
def cbHalfOneSuccess : CircuitBreaker :=
  { state := CircuitState.HALF_OPEN, failureCount := 0, successCount := 1, lastFailureTime := 0 }

/-- The snapshot family of the end-to-end filter example: liquidity 5000,
5m volume 500, 5m price change 20, FDV 50000 (ratio 10), with the symbol,
name, 24h volume and creation time left as parameters. -/
def claimPair (symbol name : String) (volume24h : ℚ) (t : ℤ) : TokenPair :=
  { chainId := "solana", dexId := "raydium", pairAddress := "PAIRADDR",
    baseToken := { address := "MINTADDR", name := name, symbol := symbol },
    fdv := some 50000, liquidityUsd := some 5000, volumeM5 := some 500,
    volumeH24 := some volume24h, priceChangeM5 := some 20, pairCreatedAt := some t }

/-- A concrete snapshot of the family with 24h volume 6000, created at
epoch 700000 (5 minutes before epoch 1000000). -/
def passingPair : TokenPair :=
  { chainId := "solana", dexId := "raydium", pairAddress := "PAIRADDR",
    baseToken := { address := "MINTADDR", name := "Mooncoin", symbol := "MOON" },
    fdv := some 50000, liquidityUsd := some 5000, volumeM5 := some 500,
    volumeH24 := some 6000, priceChangeM5 := some 20, pairCreatedAt := some 700000 }

/-- The same snapshot with 24h volume 0. -/
def lowVol24Pair : TokenPair :=
  { chainId := "solana", dexId := "raydium", pairAddress := "PAIRADDR",
    baseToken := { address := "MINTADDR", name := "Mooncoin", symbol := "MOON" },
    fdv := some 50000, liquidityUsd := some 5000, volumeM5 := some 500,
    volumeH24 := some 0, priceChangeM5 := some 20, pairCreatedAt := some 700000 }

/-! ## Theorems -/

/-- C1 counterexample: run the breaker from its initial state through five
failures (Open), the cooldown gate (HalfOpen), and one recorded success.
The success resets the failure count, so the next recorded failure leaves
the breaker HalfOpen — it does not transition to Open, although fewer than
two successes were recorded since entering HalfOpen. -/
theorem C1_counterexample :
    let cbOpen := CircuitBreaker.recordFailure 0 (CircuitBreaker.recordFailure 0
      (CircuitBreaker.recordFailure 0 (CircuitBreaker.recordFailure 0
        (CircuitBreaker.recordFailure 0 CircuitBreaker.initial))))
    let cbHalf := (cbOpen.canAttempt 60000).2
    let cbTrial := cbHalf.recordSuccess
    cbOpen.state = CircuitState.OPEN ∧
    cbHalf.state = CircuitState.HALF_OPEN ∧
    cbTrial.state = CircuitState.HALF_OPEN ∧
    cbTrial.successCount = 1 ∧
    (cbTrial.recordFailure 60000).state = CircuitState.HALF_OPEN := by
  decide

/-- C1 (amended): while HalfOpen, recording a failure transitions the
breaker to Open iff the incremented failure count reaches the failure
threshold (5). Immediately after entering HalfOpen with no successes, the
residual count (≥ 5) makes a single failure reopen; after a recorded
success, which resets the count to 0, a single failure leaves it HalfOpen. -/
theorem C1_halfOpen_failure_opens_iff_threshold (cb : CircuitBreaker) (t : ℤ)
    (h : cb.state = CircuitState.HALF_OPEN) :
    (cb.recordFailure t).state = CircuitState.OPEN ↔
      failureThreshold ≤ cb.failureCount + 1 := by
  by_cases hc : failureThreshold ≤ cb.failureCount + 1
  · simp [CircuitBreaker.recordFailure, hc]
  · simp [CircuitBreaker.recordFailure, hc, h]

/-- Concrete run of `C1_halfOpen_failure_opens_iff_threshold` on a HalfOpen
breaker with failure count 0 and one recorded success. -/
theorem C1_halfOpen_failure_opens_iff_threshold_witness :
    (cbHalfOneSuccess.recordFailure 60000).state = CircuitState.OPEN ↔
      failureThreshold ≤ cbHalfOneSuccess.failureCount + 1 :=
  C1_halfOpen_failure_opens_iff_threshold cbHalfOneSuccess 60000 rfl

/-- C2 counterexample: after the cooldown, the first gate check moves the
breaker to HalfOpen and admits the call; a second gate check, with no trial
outcome recorded in between, is admitted as well — not exactly one trial
call is allowed through. -/
theorem C2_counterexample :
    let cbOpen := CircuitBreaker.recordFailure 0 (CircuitBreaker.recordFailure 0
      (CircuitBreaker.recordFailure 0 (CircuitBreaker.recordFailure 0
        (CircuitBreaker.recordFailure 0 CircuitBreaker.initial))))
    let gate1 := cbOpen.canAttempt 60000
    let gate2 := gate1.2.canAttempt 60000
    cbOpen.state = CircuitState.OPEN ∧
    gate1.1 = true ∧ gate1.2.state = CircuitState.HALF_OPEN ∧
    gate2.1 = true ∧ gate2.2 = gate1.2 := by
  decide

/-- C2 (amended): while Open before the 60s cooldown, `fetchWithRetry`
returns null with zero network attempts and an unchanged breaker; once the
cooldown elapsed, the gate admits the call and moves the breaker to
HalfOpen; and while HalfOpen the gate admits every call (not exactly one)
until a recorded outcome changes the state. -/
theorem C2_open_gate_spec :
    (∀ (α : Type) (outcomes : Nat → Option α) (rand : Nat → ℚ) (retryDelay : ℚ)
       (retries : Nat) (now : ℤ) (cb : CircuitBreaker),
       cb.state = CircuitState.OPEN → now - cb.lastFailureTime < breakerTimeout →
       fetchWithRetry outcomes rand retryDelay retries now cb =
         { result := none, waits := [], attempts := 0, failuresRecorded := 0,
           breaker := cb }) ∧
    (∀ (now : ℤ) (cb : CircuitBreaker),
       cb.state = CircuitState.OPEN → breakerTimeout ≤ now - cb.lastFailureTime →
       cb.canAttempt now =
         (true, { cb with state := CircuitState.HALF_OPEN, successCount := 0 })) ∧
    (∀ (now : ℤ) (cb : CircuitBreaker),
       cb.state = CircuitState.HALF_OPEN → cb.canAttempt now = (true, cb)) := by
  refine ⟨?_, ?_, ?_⟩
  · intro α outcomes rand retryDelay retries now cb hs hlt
    simp [fetchWithRetry, CircuitBreaker.canAttempt, hs, not_le.mpr hlt]
  · intro now cb hs hle
    simp [CircuitBreaker.canAttempt, hs, hle]
  · intro now cb hs
    simp [CircuitBreaker.canAttempt, hs]

/-- Concrete run of `C2_open_gate_spec` on an Open breaker: rejected before
the cooldown, admitted into HalfOpen after it, and admitted again while
HalfOpen. -/
theorem C2_open_gate_spec_witness :
    (fetchWithRetry (fun _ => (none : Option Unit)) (fun _ => 0) 1000 3 30000 cbOpenAt0 =
      { result := none, waits := [], attempts := 0, failuresRecorded := 0,
        breaker := cbOpenAt0 }) ∧
    (CircuitBreaker.canAttempt 60000 cbOpenAt0 = (true, cbHalfAt0)) ∧
    (CircuitBreaker.canAttempt 60000 cbHalfAt0 = (true, cbHalfAt0)) :=
  ⟨C2_open_gate_spec.1 Unit (fun _ => none) (fun _ => 0) 1000 3 30000 cbOpenAt0
      rfl (by decide),
   C2_open_gate_spec.2.1 60000 cbOpenAt0 rfl (by decide),
   C2_open_gate_spec.2.2 60000 cbHalfAt0 rfl⟩

/-- C8: the cleanup sweep keeps an entry iff its timestamp is at most 24
hours in the past; concretely, an entry 25 hours old is removed by a sweep
while an entry 23 hours old is retained. -/
theorem C8_cleanOldCache_spec :
    (∀ (now : ℤ) (seen : SeenCache) (a : String) (e : CacheEntry),
      (a, e) ∈ cleanOldCache now seen ↔
        (a, e) ∈ seen ∧ now - e.timestamp ≤ maxCacheAgeMs) ∧
    cleanOldCache (25 * 3600000)
      [("old", { timestamp := 0, pairCreatedAt := 0 }),
       ("young", { timestamp := 2 * 3600000, pairCreatedAt := 0 })] =
      [("young", { timestamp := 2 * 3600000, pairCreatedAt := 0 })] := by
  constructor
  · intro now seen a e
    simp [cleanOldCache, List.mem_filter, not_lt]
  · decide

/-- A filtered list has positive length iff some element satisfies the
predicate. -/
theorem length_filter_pos_iff {α : Type} (p : α → Bool) (l : List α) :
    0 < (l.filter p).length ↔ ∃ x ∈ l, p x = true := by
  rw [List.length_pos, Ne, List.filter_eq_nil_iff]
  push_neg
  simp

/-- C10: `checkRugStatus` rejects (returns false) exactly when the
upstream responded 2xx with a body whose score exceeds 1500 or whose risks
contain a danger-level entry; a thrown error or any non-2xx status
(including 404) passes the token through. -/
theorem C10_checkRugStatus_fails_open (o : RugFetchOutcome) :
    checkRugStatus o = false ↔
      ∃ scoreField risksField, o = RugFetchOutcome.okBody scoreField risksField ∧
        (scoreField.getD 0 > 1500 ∨ ∃ r ∈ risksField.getD [], r.level = "danger") := by
  cases o with
  | thrown => simp [checkRugStatus]
  | badStatus s => simp [checkRugStatus]
  | okBody sc rs =>
    simp only [checkRugStatus, RugFetchOutcome.okBody.injEq]
    by_cases h1 : sc.getD 0 > 1500
    · refine iff_of_true ?_ ⟨sc, rs, ⟨rfl, rfl⟩, Or.inl h1⟩
      simp [h1]
    · rw [if_neg h1]
      by_cases h2 : ∃ r ∈ rs.getD [], r.level = "danger"
      · have hpos : 0 < ((rs.getD []).filter (fun r => r.level == "danger")).length := by
          rw [length_filter_pos_iff]
          obtain ⟨r, hr, hl⟩ := h2
          exact ⟨r, hr, by simp [hl]⟩
        refine iff_of_true ?_ ⟨sc, rs, ⟨rfl, rfl⟩, Or.inr h2⟩
        simp [hpos]
      · have hzero : ¬ 0 < ((rs.getD []).filter (fun r => r.level == "danger")).length := by
          rw [length_filter_pos_iff]
          push_neg
          intro r hr
          intro hcontra
          exact h2 ⟨r, hr, by simpa using hcontra⟩
        refine iff_of_false ?_ ?_
        · simp [hzero]
        · rintro ⟨sf, rf, ⟨rfl, rfl⟩, hbad | hbad⟩
          · exact h1 hbad
          · exact h2 hbad

/-- C5: with at least 5 history points and a positive average volume over
the most recent min(20, available) points, `detectVolumeSpike` triggers iff
the current volume is at least 3 times the average and the supplied price
change is at least 5; concretely, with average volume 100 and price change
6, it triggers at current volume 301 and not at 299. -/
theorem C5_volumeSpike_spec :
    (∀ (history : List PricePoint) (currentVolume priceChange : ℚ),
      5 ≤ history.length → 0 < avgVolume history →
      (detectVolumeSpike history currentVolume priceChange = true ↔
        minVolumeSpike * avgVolume history ≤ currentVolume ∧
          minPriceChangePercent ≤ priceChange)) ∧
    avgVolume spikeHistory = 100 ∧
    detectVolumeSpike spikeHistory 301 6 = true ∧
    detectVolumeSpike spikeHistory 299 6 = false := by
  have havg100 : avgVolume spikeHistory = 100 := by
    norm_num [avgVolume, calculateMA, spikeHistory, Nat.min_def, List.sum_cons, List.sum_nil]
  have hlen5 : spikeHistory.length = 5 := rfl
  refine ⟨?_, havg100, ?_, ?_⟩
  case refine_2 =>
    norm_num [detectVolumeSpike, havg100, hlen5, minVolumeSpike, minPriceChangePercent]
  case refine_3 =>
    norm_num [detectVolumeSpike, havg100, hlen5, minVolumeSpike, minPriceChangePercent]
  intro history cv pc h5 havg
  have hns : ¬ history.length < 5 := by omega
  simp only [detectVolumeSpike, if_neg hns]
  by_cases hcv : cv < minVolumeSpike * avgVolume history
  · rw [if_pos (Or.inr hcv)]
    simp [not_le.mpr hcv]
  · rw [if_neg (not_or.mpr ⟨not_le.mpr havg, hcv⟩)]
    by_cases hpc : pc < minPriceChangePercent
    · rw [if_pos hpc]
      simp [not_le.mpr hpc]
    · rw [if_neg hpc]
      exact iff_of_true rfl ⟨not_lt.mp hcv, not_lt.mp hpc⟩

/-- Concrete run of `C5_volumeSpike_spec` on the 5-point history with
average volume 100. -/
theorem C5_volumeSpike_spec_witness :
    detectVolumeSpike spikeHistory 301 6 = true ↔
      minVolumeSpike * avgVolume spikeHistory ≤ 301 ∧ minPriceChangePercent ≤ 6 :=
  C5_volumeSpike_spec.1 spikeHistory 301 6 (by decide)
    (by norm_num [avgVolume, calculateMA, spikeHistory, Nat.min_def,
      List.sum_cons, List.sum_nil])

/-- C6: with at least 10 history points, `detectMomentumBack` triggers iff
the pullback percent lies in [5, 40], the recovery percent is at least 10,
and the 1h change is at least 2 or the 24h change at least 5; concretely,
with last-10 high 10, low 7 and current price 7.5, the pullback is 25 and
the recovery 50/7 < 10, so it does not trigger even though the price-change
condition holds. -/
theorem C6_momentumBack_spec :
    (∀ (history : List PricePoint) (currentPrice priceChange1h priceChange24h : ℚ),
      10 ≤ history.length →
      (detectMomentumBack history currentPrice priceChange1h priceChange24h = true ↔
        (5 ≤ pullbackPercent history currentPrice ∧
         pullbackPercent history currentPrice ≤ maxPullbackPercent ∧
         minMomentumPercent ≤ recoveryPercent history currentPrice ∧
         (2 ≤ priceChange1h ∨ 5 ≤ priceChange24h)))) ∧
    recentHigh momentumHistory = 10 ∧
    recentLow momentumHistory = 7 ∧
    pullbackPercent momentumHistory (15/2) = 25 ∧
    recoveryPercent momentumHistory (15/2) = 50 / 7 ∧
    detectMomentumBack momentumHistory (15/2) 3 6 = false := by
  have hhigh : recentHigh momentumHistory = 10 := by
    norm_num [recentHigh, listMax, momentumHistory, max_def]
  have hlow : recentLow momentumHistory = 7 := by
    norm_num [recentLow, listMin, momentumHistory, min_def]
  have hlen10 : momentumHistory.length = 10 := rfl
  have hpb25 : pullbackPercent momentumHistory (15/2) = 25 := by
    rw [pullbackPercent, hhigh]
    norm_num
  have hrc7 : recoveryPercent momentumHistory (15/2) = 50 / 7 := by
    rw [recoveryPercent, hlow]
    norm_num
  refine ⟨?_, hhigh, hlow, hpb25, hrc7, ?_⟩
  case refine_2 =>
    norm_num [detectMomentumBack, hlen10, hpb25, hrc7, minMomentumPercent,
      maxPullbackPercent]
  intro history current pc1 pc24 h10
  have hns : ¬ history.length < 10 := by omega
  simp only [detectMomentumBack, if_neg hns]
  by_cases hpb : pullbackPercent history current < 5 ∨
      pullbackPercent history current > maxPullbackPercent
  · rw [if_pos hpb]
    rcases hpb with h | h
    · simp [not_le.mpr h]
    · simp [not_le.mpr h]
  · rw [if_neg hpb]
    push_neg at hpb
    by_cases hrec : recoveryPercent history current < minMomentumPercent
    · rw [if_pos hrec]
      simp [not_le.mpr hrec]
    · rw [if_neg hrec]
      by_cases hpc : pc1 < 2 ∧ pc24 < 5
      · rw [if_pos hpc]
        simp [not_le.mpr hpc.1, not_le.mpr hpc.2]
      · rw [if_neg hpc]
        rw [not_and_or, not_lt, not_lt] at hpc
        exact iff_of_true rfl ⟨hpb.1, hpb.2, not_lt.mp hrec, hpc⟩

/-- Concrete run of `C6_momentumBack_spec` on the 10-point history with
high 10 and low 7 at current price 7.5. -/
theorem C6_momentumBack_spec_witness :
    detectMomentumBack momentumHistory (15/2) 3 6 = true ↔
      (5 ≤ pullbackPercent momentumHistory (15/2) ∧
       pullbackPercent momentumHistory (15/2) ≤ maxPullbackPercent ∧
       minMomentumPercent ≤ recoveryPercent momentumHistory (15/2) ∧
       (2 ≤ (3 : ℚ) ∨ 5 ≤ (6 : ℚ))) :=
  C6_momentumBack_spec.1 momentumHistory (15/2) 3 6 (by decide)

/-- C4 counterexample: the claim's snapshot constraints (liquidity 5000,
5m volume 500, age 5 minutes, no banned word, 5m change 20, FDV/liquidity
10) leave the 24h volume free; with 24h volume 0 the verdict passes but
carries the low-24h-volume warning, so the warnings list is not empty. -/
theorem C4_counterexample :
    (filterToken defaultScannerConfig 1000000 lowVol24Pair).passed = true ∧
    (filterToken defaultScannerConfig 1000000 lowVol24Pair).warnings
      = ["⚠️ Low volume 24h"] := by
  have hB : (checkBannedWords defaultBannedWords ("MOON") ("Mooncoin")).1 = false := by
    decide
  have hcalc : filterToken defaultScannerConfig 1000000 lowVol24Pair =
      { passed := true, reason := none, warnings := ["⚠️ Low volume 24h"],
        security := none,
        stats := ⟨5000, 500, 0, 20⟩ } := by
    simp only [filterToken, lowVol24Pair, defaultScannerConfig, Option.getD_some,
      jsTruthyTime, hB]
    norm_num
  rw [hcalc]
  exact ⟨rfl, rfl⟩

/-- C4 (amended): a snapshot with liquidity 5000, 5m volume 500, age 5
minutes, no banned word in symbol or name, 5m price change 20, FDV over
liquidity 10 and, additionally, 24h volume at least 5000, passes the
filter under the default thresholds with an empty warnings list. -/
theorem C4_amended_spec (symbol name : String) (volume24h : ℚ) (now t : ℤ)
    (hB : (checkBannedWords defaultBannedWords symbol name).1 = false)
    (ht : now - t = 300000) (ht0 : t ≠ 0) (h24 : 5000 ≤ volume24h) :
    filterToken defaultScannerConfig now (claimPair symbol name volume24h t) =
      { passed := true, reason := none, warnings := [], security := none,
        stats := ⟨5000, 500, volume24h, 20⟩ } := by
  have hage : ((now - t : ℤ) : ℚ) / 60000 = 5 := by
    rw [ht]; norm_num
  simp only [filterToken, claimPair, defaultScannerConfig, Option.getD_some,
    jsTruthyTime, hage, hB]
  norm_num [not_lt.mpr h24]

/-- Concrete run of `C4_amended_spec` on the snapshot with 24h volume 6000
created at epoch 700000, evaluated at epoch 1000000. -/
theorem C4_amended_spec_witness :
    filterToken defaultScannerConfig 1000000 (claimPair ("MOON") ("Mooncoin") 6000 700000) =
      { passed := true, reason := none, warnings := [], security := none,
        stats := ⟨5000, 500, 6000, 20⟩ } :=
  C4_amended_spec ("MOON") ("Mooncoin") 6000 1000000 700000 (by decide) (by decide)
    (by decide) (by norm_num)

/-- Every branch of `filterToken` leaves the `security` field unset. -/
theorem filterToken_security_eq_none (cfg : ScannerConfig) (now : ℤ) (pair : TokenPair) :
    (filterToken cfg now pair).security = none := by
  simp only [filterToken]
  repeat' split
  all_goals rfl

/-- The concrete snapshot `passingPair` passes the basic filter under the
default configuration at epoch 1000000. -/
theorem filterToken_passingPair_passed :
    (filterToken defaultScannerConfig 1000000 passingPair).passed = true := by
  have hB : (checkBannedWords defaultBannedWords ("MOON") ("Mooncoin")).1 = false := by
    decide
  have hcalc : filterToken defaultScannerConfig 1000000 passingPair =
      { passed := true, reason := none, warnings := [], security := none,
        stats := ⟨5000, 500, 6000, 20⟩ } := by
    simp only [filterToken, passingPair, defaultScannerConfig, Option.getD_some,
      jsTruthyTime, hB]
    norm_num
  rw [hcalc]

/-- C9: when `checkTokenSecurity` throws while the token already passed
the basic filters, the exception is caught and the verdict is the basic
one unchanged: still passed, with the security field unset — a
security-check failure never by itself rejects the token. -/
theorem C9_security_exception_keeps_pass (cfg : ScannerConfig) (now : ℤ) (pair : TokenPair)
    (h : (filterToken cfg now pair).passed = true) :
    (filterTokenWithSecurity cfg now pair none).passed = true ∧
    (filterTokenWithSecurity cfg now pair none).security = none := by
  have hid : filterTokenWithSecurity cfg now pair none = filterToken cfg now pair := by
    simp only [filterTokenWithSecurity, h]
    repeat' split
    all_goals rfl
  rw [hid]
  exact ⟨h, filterToken_security_eq_none cfg now pair⟩

/-- Concrete run of `C9_security_exception_keeps_pass` on `passingPair`. -/
theorem C9_security_exception_keeps_pass_witness :
    (filterTokenWithSecurity defaultScannerConfig 1000000 passingPair none).passed = true ∧
    (filterTokenWithSecurity defaultScannerConfig 1000000 passingPair none).security = none :=
  C9_security_exception_keeps_pass defaultScannerConfig 1000000 passingPair
    filterToken_passingPair_passed

/-- With every attempt failing, a run of the retry loop from `attempt`
with `fuel` remaining iterations (ending exactly at `retries`) returns
null, makes `fuel` network attempts, records exactly one breaker failure,
and waits the jittered exponential backoff after each non-final attempt. -/
theorem retryLoopAux_all_fail {α : Type} (outcomes : Nat → Option α) (rand : Nat → ℚ)
    (retryDelay : ℚ) (retries : Nat) (now : ℤ)
    (hfail : ∀ k, outcomes k = none) :
    ∀ fuel attempt cb, 1 ≤ fuel → attempt + fuel = retries + 1 →
      retryLoopAux outcomes rand retryDelay retries now attempt fuel cb =
        { result := none,
          waits := (List.range (fuel - 1)).map
            (fun i => addJitter (rand (attempt + i)) (retryDelay * 2 ^ (attempt + i - 1))),
          attempts := fuel,
          failuresRecorded := 1,
          breaker := cb.recordFailure now } := by
  intro fuel
  induction fuel with
  | zero =>
    intro attempt cb h1 _
    exact absurd h1 (by omega)
  | succ f ih =>
    intro attempt cb _ hsum
    simp only [retryLoopAux, hfail attempt]
    by_cases hlast : attempt = retries
    · have hf0 : f = 0 := by omega
      subst hf0
      rw [if_pos hlast]
      rfl
    · have hf : 1 ≤ f := by omega
      rw [if_neg hlast, ih (attempt + 1) cb hf (by omega)]
      have hrange : List.range (f + 1 - 1) = 0 :: (List.range (f - 1)).map Nat.succ := by
        have h2 : f + 1 - 1 = (f - 1) + 1 := by omega
        rw [h2, List.range_succ_eq_map]
      simp only [FetchTrace.mk.injEq, hrange, List.map_cons, List.map_map, Nat.add_zero,
        true_and, and_true]
      congr 1
      apply List.map_congr_left
      intro i _
      have e1 : attempt + 1 + i = attempt + Nat.succ i := by omega
      rw [Function.comp_apply, e1]

/-- C3: when an admitted `fetchWithRetry` call has every attempt fail, the
call returns null after making all `retries` attempts, records exactly one
breaker failure (the final attempt's, via `recordFailure`), and the wait
before attempt k+1 is `retryDelay * 2^(k-1)` plus a jitter lying in
`[0, 0.3 * (retryDelay * 2^(k-1))]`. -/
theorem C3_retry_backoff_spec (α : Type) (outcomes : Nat → Option α) (rand : Nat → ℚ)
    (retryDelay : ℚ) (retries : Nat) (now : ℤ) (cb : CircuitBreaker)
    (hgate : (cb.canAttempt now).1 = true)
    (hret : 1 ≤ retries)
    (hfail : ∀ k, outcomes k = none)
    (hrand : ∀ k, 0 ≤ rand k ∧ rand k < 1)
    (hdelay : 0 ≤ retryDelay) :
    (fetchWithRetry outcomes rand retryDelay retries now cb).result = none ∧
    (fetchWithRetry outcomes rand retryDelay retries now cb).attempts = retries ∧
    (fetchWithRetry outcomes rand retryDelay retries now cb).failuresRecorded = 1 ∧
    (fetchWithRetry outcomes rand retryDelay retries now cb).breaker =
      ((cb.canAttempt now).2).recordFailure now ∧
    (fetchWithRetry outcomes rand retryDelay retries now cb).waits.length = retries - 1 ∧
    (∀ k, 1 ≤ k → k < retries →
      ∃ j, 0 ≤ j ∧ j ≤ 3 / 10 * (retryDelay * 2 ^ (k - 1)) ∧
        (fetchWithRetry outcomes rand retryDelay retries now cb).waits.get? (k - 1) =
          some (retryDelay * 2 ^ (k - 1) + j)) := by
  have hfw : fetchWithRetry outcomes rand retryDelay retries now cb =
      retryLoopAux outcomes rand retryDelay retries now 1 retries (cb.canAttempt now).2 := by
    simp [fetchWithRetry, hgate]
  have hloop := retryLoopAux_all_fail outcomes rand retryDelay retries now hfail retries 1
    ((cb.canAttempt now).2) hret (by omega)
  rw [hfw, hloop]
  refine ⟨rfl, rfl, rfl, rfl, by simp, ?_⟩
  intro k hk1 hk2
  refine ⟨rand k * (3 / 10) * (retryDelay * 2 ^ (k - 1)), ?_, ?_, ?_⟩
  · exact mul_nonneg (mul_nonneg (hrand k).1 (by norm_num))
      (mul_nonneg hdelay (pow_nonneg (by norm_num) _))
  · have hB : (0 : ℚ) ≤ retryDelay * 2 ^ (k - 1) :=
      mul_nonneg hdelay (pow_nonneg (by norm_num) _)
    have h1 : rand k * (3 / 10) ≤ 3 / 10 := by
      nlinarith [(hrand k).1, (hrand k).2]
    exact mul_le_mul_of_nonneg_right h1 hB
  · rw [List.get?_map, List.get?_range (by omega : k - 1 < retries - 1)]
    have e1 : 1 + (k - 1) = k := by omega
    simp only [Option.map_some', addJitter]
    rw [e1]

/-- Concrete run of `C3_retry_backoff_spec`: three failing attempts on a
Closed breaker with base delay 1000 and jitter draw 1/2 everywhere. -/
theorem C3_retry_backoff_spec_witness :
    (fetchWithRetry (fun _ => (none : Option Unit)) (fun _ => (1 : ℚ) / 2) 1000 3 0
        CircuitBreaker.initial).result = none ∧
    (fetchWithRetry (fun _ => (none : Option Unit)) (fun _ => (1 : ℚ) / 2) 1000 3 0
        CircuitBreaker.initial).attempts = 3 ∧
    (fetchWithRetry (fun _ => (none : Option Unit)) (fun _ => (1 : ℚ) / 2) 1000 3 0
        CircuitBreaker.initial).failuresRecorded = 1 :=
  have h := C3_retry_backoff_spec Unit (fun _ => none) (fun _ => (1 : ℚ) / 2) 1000 3 0
    CircuitBreaker.initial rfl (by decide) (fun _ => rfl) (fun _ => by norm_num)
    (by norm_num)
  ⟨h.1, h.2.1, h.2.2.1⟩

/-- Lookup after a JS `Map.set`: the new key maps to the new value, every
other key is unchanged. -/
theorem alistGet_alistSet {β : Type} (m : List (String × β)) (k a : String) (v : β) :
    alistGet (alistSet m k v) a = if a = k then some v else alistGet m a := by
  induction m with
  | nil =>
    by_cases h : a = k
    · simp [alistSet, alistGet, h]
    · have hk : ¬ k = a := fun hh => h hh.symm
      simp [alistSet, alistGet, h, hk]
  | cons e rest ih =>
    obtain ⟨k', v'⟩ := e
    by_cases hk : k' = k
    · subst hk
      by_cases h : k' = a
      · subst h
        simp [alistSet, alistGet]
      · have ha : ¬ a = k' := fun hh => h hh.symm
        simp [alistSet, alistGet, h, ha]
    · by_cases h : k' = a
      · subst h
        simp [alistSet, alistGet, hk]
      · have ha : ¬ a = k' := fun hh => h hh.symm
        simp [alistSet, alistGet, hk, h, ha, ih]

/-- A key is present after the seen-cache insertion fold iff it was present
before or is the address of one of the inserted pairs. -/
theorem alistGet_foldl_isSome (now : ℤ) (l : List TokenPair) (s : SeenCache) (a : String) :
    (alistGet (l.foldl (fun s p =>
        alistSet s p.pairAddress { timestamp := now, pairCreatedAt := p.pairCreatedAt.getD 0 })
        s) a).isSome = true ↔
      (alistGet s a).isSome = true ∨ ∃ q ∈ l, q.pairAddress = a := by
  induction l generalizing s with
  | nil => simp
  | cons p rest ih =>
    simp only [List.foldl_cons]
    rw [ih, alistGet_alistSet]
    by_cases h : a = p.pairAddress
    · refine iff_of_true (Or.inl (by simp [h]))
        (Or.inr ⟨p, List.mem_cons_self p rest, h.symm⟩)
    · rw [if_neg h]
      apply or_congr_right
      constructor
      · rintro ⟨q, hq, hqa⟩
        exact ⟨q, List.mem_cons_of_mem p hq, hqa⟩
      · rintro ⟨q, hq, hqa⟩
        rcases List.mem_cons.mp hq with rfl | hq'
        · exact absurd hqa.symm h
        · exact ⟨q, hq', hqa⟩

/-- Entries after a JS `Map.set` are the new binding or old entries. -/
theorem mem_alistSet {β : Type} (m : List (String × β)) (k : String) (v : β)
    (e : String × β) : e ∈ alistSet m k v → e = (k, v) ∨ e ∈ m := by
  induction m with
  | nil => simp [alistSet]
  | cons f rest ih =>
    obtain ⟨k', v'⟩ := f
    simp only [alistSet]
    by_cases hk : k' = k
    · rw [if_pos hk]
      intro he
      rcases List.mem_cons.mp he with rfl | hm
      · subst hk
        exact Or.inl rfl
      · exact Or.inr (List.mem_cons_of_mem _ hm)
    · rw [if_neg hk]
      intro he
      rcases List.mem_cons.mp he with rfl | hm
      · exact Or.inr (List.mem_cons_self _ _)
      · rcases ih hm with h | h
        · exact Or.inl h
        · exact Or.inr (List.mem_cons_of_mem _ h)

/-- Keys after a JS `Map.set` are the new key or old keys. -/
theorem mem_keys_alistSet {β : Type} (m : List (String × β)) (k : String) (v : β)
    (a : String) :
    a ∈ (alistSet m k v).map Prod.fst ↔ a = k ∨ a ∈ m.map Prod.fst := by
  induction m with
  | nil => simp [alistSet]
  | cons f rest ih =>
    obtain ⟨k', v'⟩ := f
    simp only [alistSet]
    by_cases hk : k' = k
    · subst hk
      rw [if_pos rfl]
      simp only [List.map_cons, List.mem_cons]
      tauto
    · rw [if_neg hk]
      simp only [List.map_cons, List.mem_cons, ih]
      tauto

/-- A JS `Map.set` preserves distinctness of the keys. -/
theorem nodup_keys_alistSet {β : Type} (m : List (String × β)) (k : String) (v : β)
    (h : (m.map Prod.fst).Nodup) : ((alistSet m k v).map Prod.fst).Nodup := by
  induction m with
  | nil => simp [alistSet]
  | cons f rest ih =>
    obtain ⟨k', v'⟩ := f
    simp only [List.map_cons, List.nodup_cons] at h
    simp only [alistSet]
    by_cases hk : k' = k
    · rw [if_pos hk]
      simp only [List.map_cons, List.nodup_cons]
      exact h
    · rw [if_neg hk]
      simp only [List.map_cons, List.nodup_cons]
      refine ⟨?_, ih h.2⟩
      intro hmem
      rcases (mem_keys_alistSet rest k v k').mp hmem with h1 | h1
      · exact hk h1
      · exact h.1 h1

/-- In an association list with distinct keys, a key determines its value. -/
theorem alist_nodup_key_eq {β : Type} (m : List (String × β)) :
    (m.map Prod.fst).Nodup → ∀ k v v', (k, v) ∈ m → (k, v') ∈ m → v = v' := by
  induction m with
  | nil =>
    intro _ k v v' h1
    simp at h1
  | cons f rest ih =>
    obtain ⟨fk, fv⟩ := f
    intro h k v v' h1 h2
    simp only [List.map_cons, List.nodup_cons] at h
    rcases List.mem_cons.mp h1 with h1' | hm1 <;> rcases List.mem_cons.mp h2 with h2' | hm2
    · injection h1' with e1 e2
      injection h2' with e3 e4
      rw [e2, e4]
    · injection h1' with e1 e2
      subst e1
      exact absurd (List.mem_map.mpr ⟨(k, v'), hm2, rfl⟩) h.1
    · injection h2' with e3 e4
      subst e3
      exact absurd (List.mem_map.mpr ⟨(k, v), hm1, rfl⟩) h.1
    · exact ih h.2 k v v' hm1 hm2

/-- The dedup fold keeps keys distinct and every value keyed by its own
pair address. -/
theorem dedup_fold_inv (ps : List TokenPair) :
    ∀ m : List (String × TokenPair),
      ((m.map Prod.fst).Nodup ∧ ∀ e ∈ m, (e.2).pairAddress = e.1) →
      (((ps.foldl (fun acc p => alistSet acc p.pairAddress p) m).map Prod.fst).Nodup ∧
        ∀ e ∈ ps.foldl (fun acc p => alistSet acc p.pairAddress p) m,
          (e.2).pairAddress = e.1) := by
  induction ps with
  | nil =>
    intro m h
    simpa using h
  | cons p rest ih =>
    intro m h
    simp only [List.foldl_cons]
    refine ih _ ⟨nodup_keys_alistSet m p.pairAddress p h.1, ?_⟩
    intro e he
    rcases mem_alistSet m p.pairAddress p e he with rfl | hm
    · rfl
    · exact h.2 e hm

/-- Last-writer-wins dedup keeps at most one pair per address. -/
theorem dedupByAddress_addr_inj (ps : List TokenPair) (p q : TokenPair)
    (hp : p ∈ dedupByAddress ps) (hq : q ∈ dedupByAddress ps)
    (ha : p.pairAddress = q.pairAddress) : p = q := by
  have hinv := dedup_fold_inv ps [] ⟨by simp, by simp⟩
  rw [dedupByAddress] at hp hq
  obtain ⟨ep, hep, hep2⟩ := List.mem_map.mp hp
  obtain ⟨eq', heq, heq2⟩ := List.mem_map.mp hq
  obtain ⟨ek, ev⟩ := ep
  obtain ⟨ek', ev'⟩ := eq'
  have hkp : ek = p.pairAddress := by
    have := hinv.2 (ek, ev) hep
    simp only at this hep2
    rw [hep2] at this
    exact this.symm
  have hkq : ek' = q.pairAddress := by
    have := hinv.2 (ek', ev') heq
    simp only at this heq2
    rw [heq2] at this
    exact this.symm
  simp only at hep2 heq2
  rw [hkp, hep2] at hep
  rw [hkq, heq2] at heq
  rw [← ha] at heq
  exact alist_nodup_key_eq _ hinv.1 p.pairAddress p q hep heq

/-- C7: during one `fetchNewPairs` tick, a previously unseen candidate's
address ends up in the seen-cache iff the candidate passes all gates
(truthy creation time within the age limit, liquidity-lock check, rug
check); a candidate failing any gate is not inserted, so the next poll
re-evaluates it. -/
theorem C7_seen_insert_iff_gates (seen : SeenCache) (allPairs : List TokenPair)
    (now maxAgeMs : ℤ) (lock rug : TokenPair → Bool) (p : TokenPair)
    (hp : p ∈ dedupByAddress allPairs)
    (hunseen : alistGet seen p.pairAddress = none) :
    (alistGet (fetchNewPairsCore seen allPairs now maxAgeMs lock rug).2
        p.pairAddress).isSome = true ↔
      passesGates now maxAgeMs lock rug p = true := by
  simp only [fetchNewPairsCore]
  rw [alistGet_foldl_isSome, hunseen]
  simp only [Option.isSome_none, Bool.false_eq_true, false_or]
  constructor
  · rintro ⟨q, hq, hqa⟩
    have hq1 := List.mem_filter.mp hq
    have hq2 := List.mem_filter.mp hq1.1
    have hqp : q = p := dedupByAddress_addr_inj allPairs q p hq2.1 hp hqa
    rw [← hqp]
    exact hq1.2
  · intro hgates
    refine ⟨p, ?_, rfl⟩
    apply List.mem_filter.mpr
    refine ⟨List.mem_filter.mpr ⟨hp, ?_⟩, hgates⟩
    simp [hunseen]

/-- Concrete run of `C7_seen_insert_iff_gates`: one unseen pair against an
empty cache with both async gates passing. -/
theorem C7_seen_insert_iff_gates_witness :
    (alistGet (fetchNewPairsCore [] [passingPair] 1000000 600000 (fun _ => true)
        (fun _ => true)).2 passingPair.pairAddress).isSome = true ↔
      passesGates 1000000 600000 (fun _ => true) (fun _ => true) passingPair = true :=
  C7_seen_insert_iff_gates [] [passingPair] 1000000 600000 (fun _ => true) (fun _ => true)
    passingPair (by simp [dedupByAddress, alistSet]) rfl

end PumpSol
